import Mathlib

/- Verification of the multi-account orchestration and reward-claim coordination
layer of the bitz-cli mining client: the claim coordinator (src/command/claim.rs),
the balance checker (src/command/check.rs), the batch process supervisor
(src/command/batch_mining.rs) and the terminator (src/command/stop_mining.rs).
External effects (filesystem, RPC, pool service, OS process table, process
spawning, wall-clock time) are supplied by explicit environment records. Rust
u64 and u32 values are modelled as Nat, with an explicit range check where the
code parses a u32; i64 timestamps are Int. Terminal colouring and the prints
outside the per-entry loops are not modelled. -/

/-- Decides whether the first list is an initial segment of the second.
Building block for the substring test modelling Rust String::contains. -/
def leadsList : List Char → List Char → Bool
  | [], _ => true
  | _ :: _, [] => false
  | c :: cs, d :: ds => c == d && leadsList cs ds

/-- Decides whether the needle occurs as a contiguous run inside the haystack. -/
def occursIn (ns : List Char) : List Char → Bool
  | [] => ns.isEmpty
  | d :: ds => leadsList ns (d :: ds) || occursIn ns ds

/-- Rust String::contains with a string pattern: substring occurrence of the
needle n in the haystack h. -/
def strContainsSub (h n : String) : Bool :=
  occursIn n.data h.data

/-- Rust str::starts_with with a string pattern. -/
def startsWithStr (s pat : String) : Bool :=
  leadsList pat.data s.data

/-- Strips the pattern from the front of the list, returning the remainder
when the whole pattern matched. -/
def stripLead : List Char → List Char → Option (List Char)
  | [], l => some l
  | _ :: _, [] => none
  | c :: cs, d :: ds => if c == d then stripLead cs ds else none

/-- Fuel-driven splitter at a separator pattern, consuming non-overlapping
matches left to right; called with fuel equal to the input length, which
suffices for every non-empty separator. -/
def splitOnFuel (sep : List Char) : Nat → List Char → List (List Char)
  | _, [] => [[]]
  | 0, l => [l]
  | Nat.succ f, c :: cs =>
    match stripLead sep (c :: cs) with
    | some rest => [] :: splitOnFuel sep f rest
    | none =>
      match splitOnFuel sep f cs with
      | [] => [[c]]
      | g :: gs => (c :: g) :: gs

/-- Rust str::split at a non-empty string separator (the program only splits at
the literals used in the source). -/
def splitOnStr (s sep : String) : List String :=
  (splitOnFuel sep.data s.data.length s.data).map String.mk

/-- Splits at every character satisfying the predicate, keeping empty pieces. -/
def splitPredL (p : Char → Bool) : List Char → List (List Char)
  | [] => [[]]
  | c :: cs =>
    if p c then [] :: splitPredL p cs
    else
      match splitPredL p cs with
      | [] => [[c]]
      | g :: gs => (c :: g) :: gs

/-- Rust str::trim: drop whitespace from both ends. -/
def trimStr (s : String) : String :=
  String.mk (((s.data.dropWhile Char.isWhitespace).reverse.dropWhile
    Char.isWhitespace).reverse)

/-- Decimal parse of a character list: defined on non-empty all-digit input,
as str::parse does before its range check. -/
def parseNatChars (l : List Char) : Option Nat :=
  if l.isEmpty then none
  else
    l.foldl
      (fun acc c =>
        match acc with
        | none => none
        | some n => if c.isDigit then some (n * 10 + (c.toNat - 48)) else none)
      (some 0)

/-- Rust str::split_whitespace: split at whitespace and drop empty pieces. -/
def splitWhitespace (s : String) : List String :=
  ((splitPredL Char.isWhitespace s.data).map String.mk).filter
    (fun p => decide (p ≠ ""))

/-- Rust str::parse::<u32> on the strings the program feeds it: decimal digits
only, within the u32 range. -/
def parseU32 (s : String) : Option Nat :=
  match parseNatChars s.data with
  | some n => if n < 4294967296 then some n else none
  | none => none

/-- Rust Path::extension applied to a bare file name: the piece after the last
dot; none when the name has no dot or is a hidden file with one leading dot. -/
def extOf (name : String) : Option String :=
  match splitOnStr name "." with
  | [] => none
  | [_] => none
  | ["", _] => none
  | parts => parts.getLast?

/-- Proof account snapshot as consumed by claim.rs and check.rs: the u64 balance
and the i64 last_hash_at timestamp. The struct itself comes from eore-api,
outside this repository; only these two fields are read by the code under
verification. -/
structure ProofAccount where
  balance : Nat
  lastHashAt : Int
deriving DecidableEq

/-- Result of decoding one credential entry, claim.rs lines 85-99 and check.rs
lines 60-74: base58 decode failure, Keypair::from_bytes failure, or success
with the derived public address rendered as a string. The derivation itself is
solana-sdk code outside this repository, so the address is supplied by the
environment. -/
inductive DecodeResult where
  | bs58Fail
  | keypairFail
  | ok (address : String)
deriving DecidableEq

/-- ClaimArgs from args.rs. The amount flag is an f64 that claim.rs converts
with amount_f64_to_u64 (utils.rs, not under src); it is modelled here as the
already converted u64 value. The to flag is named toAddr here because to is a
reserved word. -/
structure ClaimArgs where
  amount : Option Nat
  toAddr : Option String
  poolUrl : Option String
  subPrivate : Option String
deriving DecidableEq

/-- Miner from main.rs lines 24-38, keeping the plain configuration fields; the
runtime handles (rpc_client, the two collecting-data locks) live in the
environment record instead. -/
structure Miner where
  keypairFilepath : Option String
  privateKey : Option String
  priorityFee : Option Nat
  dynamicFeeUrl : Option String
  dynamicFee : Bool
  feePayerFilepath : Option String
  feePrivateKey : Option String
  subPrivateFilepath : Option String
deriving DecidableEq

/-- Environment of the claim coordinator and the checker: filesystem reads,
JSON parsing, credential decoding, the proof service, the wall-clock duration
of each nested per-identity claim, and the pool claim path. Errors are modelled
by their display strings. -/
structure ClaimEnv where
  readToString : String → Except String String
  parseKeys : String → Except String (List String)
  decode : String → DecodeResult
  fetchProof : String → Except String ProofAccount
  claimDuration : String → Nat
  poolClaim : Option String → ClaimArgs → Except String Unit

/-- Transaction status column of the report row, claim.rs lines 108-176. The
rendered strings are 无可领取奖励, 领取成功, 领取失败 with the reason, 领取超时
and 查询失败 with the reason. -/
inductive ClaimStatus where
  | nothingToClaim
  | success
  | claimFailed (e : String)
  | timedOut
  | queryFailed (e : String)
deriving DecidableEq

/-- Amount column of the report row: the literal 0.0000000000 BITZ string from
line 111, the rendering of amount_u64_to_f64 of a u64 balance from line 141
(the formatter is utils.rs code, outside src, so the pre-format balance is
kept), or the literal 无法获取 from line 174. -/
inductive AmountText where
  | bitz (v : Nat)
  | literalZero
  | unavailable
deriving DecidableEq

/-- One row of the batch claim report table, claim.rs lines 22-30. -/
structure ClaimData where
  address : String
  amount : AmountText
  status : ClaimStatus
deriving DecidableEq

/-- Observable effect of one loop iteration of batch_claim: the warning lines
printed for this entry and the report row it contributed, if any. -/
structure KeyStep where
  warnings : List String
  outcome : Option ClaimData
deriving DecidableEq

/-- Observable result of the claim entry point: the returned Result, the report
rows printed as a table by the batch path, and the per-entry warning prints. -/
structure ClaimOut where
  result : Except String Unit
  table : List ClaimData
  prints : List String

/-- Short address rendering, claim.rs line 103: the first four and last four
bytes of the base58 address around an ellipsis; addresses are ASCII so byte
slicing is character slicing. -/
def shortAddress (address : String) : String :=
  String.mk (address.data.take 4) ++ "..." ++
    String.mk (address.data.drop (address.data.length - 4))

/-- Temporary Miner built for one nested claim, claim.rs lines 118-130: the
private key of the current entry substituted in, keypair_filepath and
sub_private_filepath cleared, fee configuration copied from the parent. -/
def tempMiner (m : Miner) (pk : String) : Miner :=
  { keypairFilepath := none
    privateKey := some pk
    priorityFee := m.priorityFee
    dynamicFeeUrl := m.dynamicFeeUrl
    dynamicFee := m.dynamicFee
    feePayerFilepath := m.feePayerFilepath
    feePrivateKey := m.feePrivateKey
    subPrivateFilepath := none }

/-- Argument copy for one nested claim, claim.rs lines 133-138: amount, to and
pool_url forwarded, sub_private cleared to avoid re-entering the batch path. -/
def tempArgs (args : ClaimArgs) : ClaimArgs :=
  { amount := args.amount
    toAddr := args.toAddr
    poolUrl := args.poolUrl
    subPrivate := none }

/-- Amount resolution of the single solo claim, claim.rs lines 231-235: the
converted explicit amount when given, else the fetched proof balance. -/
def resolveClaimAmount (amount : Option Nat) (balance : Nat) : Nat :=
  match amount with
  | some a => a
  | none => balance

/-- Single-identity path of the claim entry point, claim.rs lines 40-53. With a
pool url the result of claim_from_pool is propagated; it is produced by the
pool and transaction services, hence by the environment. Without one,
claim_from_proof runs: it returns unit and discards the send_and_confirm error
with .ok() at lines 254-256, so this path always yields Ok. -/
def singleClaim (env : ClaimEnv) (m : Miner) (args : ClaimArgs) : Except String Unit :=
  match args.poolUrl with
  | some _ => env.poolClaim m.privateKey args
  | none => Except.ok ()

/-- One iteration of the batch_claim loop, claim.rs lines 84-178, parameterised
by the runner k of the nested temp_miner.claim call. A none result means the
runner ran out of recursion fuel, which never happens from the real entry
point. The tokio 30 second timeout wraps only the nested claim: when the
duration exceeds the bound the run is abandoned and 领取超时 is recorded;
the proof fetch is not under the timeout. -/
def processKeyWith (k : Miner → ClaimArgs → Option ClaimOut) (env : ClaimEnv)
    (m : Miner) (args : ClaimArgs) (pk : String) : Option KeyStep :=
  match env.decode pk with
  | DecodeResult.bs58Fail => some ⟨["错误: 私钥格式错误: " ++ pk], none⟩
  | DecodeResult.keypairFail => some ⟨["错误: 无法从私钥创建密钥对"], none⟩
  | DecodeResult.ok address =>
    match env.fetchProof address with
    | Except.error e =>
        some ⟨[], some ⟨shortAddress address, AmountText.unavailable,
                        ClaimStatus.queryFailed e⟩⟩
    | Except.ok proof =>
      if proof.balance = 0 then
        some ⟨[], some ⟨shortAddress address, AmountText.literalZero,
                        ClaimStatus.nothingToClaim⟩⟩
      else if 30 < env.claimDuration pk then
        some ⟨["账户 " ++ shortAddress address ++ " 领取超时，跳过"],
              some ⟨shortAddress address, AmountText.bitz proof.balance,
                    ClaimStatus.timedOut⟩⟩
      else
        match k (tempMiner m pk) (tempArgs args) with
        | none => none
        | some out =>
          match out.result with
          | Except.ok _ =>
              some ⟨[], some ⟨shortAddress address, AmountText.bitz proof.balance,
                              ClaimStatus.success⟩⟩
          | Except.error e =>
              some ⟨[], some ⟨shortAddress address, AmountText.bitz proof.balance,
                              ClaimStatus.claimFailed e⟩⟩

/-- The batch_claim loop over the decoded key list, in input order. -/
def processKeysWith (k : Miner → ClaimArgs → Option ClaimOut) (env : ClaimEnv)
    (m : Miner) (args : ClaimArgs) : List String → Option (List KeyStep)
  | [] => some []
  | pk :: rest =>
    match processKeyWith k env m args pk with
    | none => none
    | some s =>
      match processKeysWith k env m args rest with
      | none => none
      | some ss => some (s :: ss)

/-- Body of batch_claim, claim.rs lines 56-195, parameterised by the nested
claim runner: read the credential file, parse the JSON key array, warn and
return Ok on an empty list, otherwise run the loop and return Ok together with
the report rows; read and parse failures return the two Internal errors. -/
def batchClaimWith (k : Miner → ClaimArgs → Option ClaimOut) (env : ClaimEnv)
    (m : Miner) (fp : String) (args : ClaimArgs) : Option ClaimOut :=
  match env.readToString fp with
  | Except.error _ => some ⟨Except.error "无法读取私钥文件", [], []⟩
  | Except.ok content =>
    match env.parseKeys content with
    | Except.error _ => some ⟨Except.error "JSON文件格式不正确", [], []⟩
    | Except.ok keys =>
      if keys.isEmpty then some ⟨Except.ok (), [], []⟩
      else
        match processKeysWith k env m args keys with
        | none => none
        | some steps =>
            some ⟨Except.ok (), steps.filterMap KeyStep.outcome,
                  (steps.map KeyStep.warnings).flatten⟩

/-- The public claim entry point, claim.rs lines 33-54: with sub_private set it
re-enters batch_claim (spending one unit of recursion fuel), otherwise it runs
the single-identity path. A none result means the fuel ran out. -/
def claim : Nat → ClaimEnv → Miner → ClaimArgs → Option ClaimOut
  | fuel, env, m, args =>
    match args.subPrivate with
    | some fp =>
      match fuel with
      | 0 => none
      | Nat.succ f => batchClaimWith (fun m2 a2 => claim f env m2 a2) env m fp args
    | none => some ⟨singleClaim env m args, [], []⟩

/-- batch_claim as reached from the entry point, with the nested runner being
the claim entry point at the given fuel. -/
def batch_claim (fuel : Nat) (env : ClaimEnv) (m : Miner) (fp : String)
    (args : ClaimArgs) : Option ClaimOut :=
  batchClaimWith (fun m2 a2 => claim fuel env m2 a2) env m fp args

/-- Denotation of one loop iteration of batch_claim with the nested claim call
resolved: since the nested arguments carry no sub_private, the nested entry
point always takes the single-identity path, whatever the fuel. -/
def keyStep (env : ClaimEnv) (m : Miner) (args : ClaimArgs) (pk : String) : KeyStep :=
  match env.decode pk with
  | DecodeResult.bs58Fail => ⟨["错误: 私钥格式错误: " ++ pk], none⟩
  | DecodeResult.keypairFail => ⟨["错误: 无法从私钥创建密钥对"], none⟩
  | DecodeResult.ok address =>
    match env.fetchProof address with
    | Except.error e =>
        ⟨[], some ⟨shortAddress address, AmountText.unavailable,
                   ClaimStatus.queryFailed e⟩⟩
    | Except.ok proof =>
      if proof.balance = 0 then
        ⟨[], some ⟨shortAddress address, AmountText.literalZero,
                   ClaimStatus.nothingToClaim⟩⟩
      else if 30 < env.claimDuration pk then
        ⟨["账户 " ++ shortAddress address ++ " 领取超时，跳过"],
         some ⟨shortAddress address, AmountText.bitz proof.balance,
               ClaimStatus.timedOut⟩⟩
      else
        match singleClaim env (tempMiner m pk) (tempArgs args) with
        | Except.ok _ =>
            ⟨[], some ⟨shortAddress address, AmountText.bitz proof.balance,
                       ClaimStatus.success⟩⟩
        | Except.error e =>
            ⟨[], some ⟨shortAddress address, AmountText.bitz proof.balance,
                       ClaimStatus.claimFailed e⟩⟩

/-- Syntactic validity of one credential entry: base58 decodable and keypair
constructible, claim.rs lines 85-99. -/
def validKey (env : ClaimEnv) (pk : String) : Bool :=
  match env.decode pk with
  | DecodeResult.ok _ => true
  | _ => false

/-- Rendering of the last-mining-time column of the check report, check.rs
lines 82-87: a formatted timestamp via format_timestamp (utils.rs, outside src,
so the pre-format value is kept) when last_hash_at is positive, the literal
从未挖矿 (never mined) otherwise, and the literal 无法获取 on a fetch failure. -/
inductive LastMinedText where
  | formatted (t : Int)
  | neverMined
  | unavailable
deriving DecidableEq

/-- Balance column of the check report, check.rs lines 82 and 98. -/
inductive BalanceText where
  | bitz (v : Nat)
  | unavailable
deriving DecidableEq

/-- One row of the check report table, check.rs lines 11-19. -/
structure AccountData where
  address : String
  balance : BalanceText
  lastMined : LastMinedText
deriving DecidableEq

/-- One iteration of the check loop, check.rs lines 59-104: a none result means
the entry was skipped with a warning because it did not decode. -/
def checkKey (env : ClaimEnv) (pk : String) : Option AccountData :=
  match env.decode pk with
  | DecodeResult.bs58Fail => none
  | DecodeResult.keypairFail => none
  | DecodeResult.ok address =>
    match env.fetchProof address with
    | Except.ok proof =>
        some ⟨shortAddress address, BalanceText.bitz proof.balance,
              if 0 < proof.lastHashAt then LastMinedText.formatted proof.lastHashAt
              else LastMinedText.neverMined⟩
    | Except.error _ =>
        some ⟨shortAddress address, BalanceText.unavailable,
              LastMinedText.unavailable⟩

/-- One entry of the logs directory as seen by fs::read_dir in stop_mining.rs
lines 123-131: its bare file name, whether it is a regular file, and its lines. -/
structure DirEntry where
  name : String
  isFile : Bool
  lines : List String
deriving DecidableEq

/-- The fresh OS process table: one pair of PID and command name per running
process. The platform listing command of stop_mining.rs (ps -e on the Linux
branch modelled here, lines 22-38) renders it one line per process, PID first. -/
def renderListing (procs : List (Nat × String)) : String :=
  String.intercalate "\n" (procs.map (fun p => Nat.repr p.1 ++ " " ++ p.2))

/-- PID extraction from one log line, stop_mining.rs lines 133-137: the line
must contain the 进程ID: marker; the text after the marker is trimmed, split at
commas, and the first piece is trimmed and parsed as a u32. -/
def pidOfMarkerLine (line : String) : Option Nat :=
  if strContainsSub line "进程ID:" then
    match splitOnStr line "进程ID:" with
    | _ :: piece :: _ => parseU32 (trimStr ((splitOnStr (trimStr piece) ",").headD ""))
    | _ => none
  else none

/-- Scan of one log file, stop_mining.rs lines 132-173: the first line whose
marker parses to a PID is used, then the scan breaks off. -/
def firstPid : List String → Option Nat
  | [] => none
  | l :: rest =>
    match pidOfMarkerLine l with
    | some pid => some pid
    | none => firstPid rest

/-- Log file filter of the registry-scoped sweep, stop_mining.rs lines 126-127:
a regular file with extension log whose name starts with miner underscore. -/
def isMinerLog (e : DirEntry) : Bool :=
  e.isFile && extOf e.name == some "log" && startsWithStr e.name "miner_"

/-- Registry-scoped kill selection, stop_mining.rs lines 122-178: for each
miner log of the directory, take its first recorded PID and issue a kill iff
the decimal rendering of that PID occurs as a substring of the fresh process
listing text (line 139, String::contains). -/
def registryKills (listing : String) (dir : List DirEntry) : List Nat :=
  dir.filterMap (fun e =>
    if isMinerLog e then
      match firstPid e.lines with
      | some pid =>
        if strContainsSub listing (Nat.repr pid) then some pid else none
      | none => none
    else none)

/-- PID extraction from one listing line in kill-all mode, stop_mining.rs lines
74-93, Linux branch: skip the line unless it contains the executable name bitz
anywhere; split at whitespace; when more than one token is present parse the
first token as a u32. -/
def pidOfPsLine (line : String) : Option Nat :=
  if strContainsSub line "bitz" then
    let parts := splitWhitespace line
    if parts.length > 1 then parseU32 (parts.headD "") else none
  else none

/-- Kill-all selection, stop_mining.rs lines 48-120: the listing is piped
through grep bitz (keeping the lines containing bitz as a substring), then each
kept line yields a PID to kill via pidOfPsLine. -/
def killAllPids (listing : String) : List Nat :=
  ((splitOnStr listing "\n").filter (fun l => strContainsSub l "bitz")).filterMap
    pidOfPsLine

/-- Environment of terminate_mining: whether logs/process_list.txt exists, the
fresh OS process table, the logs directory entries, whether the shell spawn of
each kill command reported Ok status (Command::status, counted at lines
111-119 and 157-165 whenever Ok), whether the stop marker file could be
created, and the formatted timestamp. -/
structure StopEnv where
  processListExists : Bool
  procs : List (Nat × String)
  dir : List DirEntry
  killStatusOk : Nat → Bool
  stopMarkerCreateOk : Bool
  now : String

/-- Observable result of terminate_mining: the PIDs a kill signal was issued
to, in order; the kill count; and the content of logs/mining_stopped.txt when
it was written, a timestamp paired with the count (line 184). -/
structure StopResult where
  issued : List Nat
  killedCount : Nat
  stopMarker : Option (String × Nat)

/-- terminate_mining, stop_mining.rs lines 11-194: return at once when the
process list artifact is missing (lines 16-19, no stop marker written);
otherwise select PIDs by mode, kill them, and overwrite the stop marker with
the timestamp and the kill count when the marker file can be created. -/
def terminate_mining (env : StopEnv) (killAll : Bool) : StopResult :=
  if env.processListExists then
    let listing := renderListing env.procs
    let issued := if killAll then killAllPids listing else registryKills listing env.dir
    let count := (issued.filter env.killStatusOk).length
    ⟨issued, count,
      if env.stopMarkerCreateOk then some (env.now, count) else none⟩
  else
    ⟨[], 0, none⟩

/-- Environment of batch_collect: the result of cmd.spawn() for the workload at
each zero-based index, a PID on success. -/
structure CollectEnv where
  spawnPid : Nat → Option Nat

/-- One successfully spawned workload, batch_mining.rs lines 108-115: the
one-based index, the child PID, and the log path; failed spawns produce no
record. -/
structure ProcessRecord where
  index : Nat
  pid : Nat
  logPath : String
deriving DecidableEq

/-- Log path of the workload at one-based index i, batch_mining.rs line 99. -/
def minerLogPath (i : Nat) : String :=
  "logs/miner_" ++ Nat.repr i ++ ".log"

/-- One process-list line, batch_mining.rs line 127: index and log path only. -/
def processListLine (i : Nat) : String :=
  "账户 #" ++ Nat.repr i ++ ": 日志文件 logs/miner_" ++ Nat.repr i ++ ".log"

/-- Observable result of batch_collect: the successfully spawned records and
the content written to logs/process_list.txt, none when the early return for an
empty key list skipped the write. -/
structure CollectResult where
  launched : List ProcessRecord
  processList : Option (List String)

/-- batch_collect, batch_mining.rs lines 13-137, after the credential file has
been read and parsed (both are expect calls, fatal on failure): an empty key
list returns before any artifact is written; otherwise the launch loop spawns
one workload per entry, recording the successes, and afterwards
logs/process_list.txt is overwritten with a header line plus one line per input
entry, spawn success or not. -/
def batch_collect (env : CollectEnv) (keys : List String) : CollectResult :=
  if keys.isEmpty then ⟨[], none⟩
  else
    ⟨(List.range keys.length).filterMap (fun idx =>
        (env.spawnPid idx).map (fun pid => ⟨idx + 1, pid, minerLogPath (idx + 1)⟩)),
      some ("批量挖矿进程列表:" ::
        (List.range keys.length).map (fun idx => processListLine (idx + 1)))⟩

/-- Miner configuration with every optional field empty, for concrete runs. -/
def m0 : Miner :=
  ⟨none, none, none, none, false, none, none, none⟩

/-- Claim arguments of a plain batch run: no amount, no beneficiary, no pool. -/
def args0 : ClaimArgs :=
  ⟨none, none, none, none⟩

/-- Claim arguments with an explicit requested amount of 1 unit. -/
def args7 : ClaimArgs :=
  ⟨some 1, none, none, none⟩

/-- Concrete claim environment: k1 decodes and has balance 5, k2 fails base58
decoding, kz has balance 0, kt decodes but its nested claim takes 40 seconds,
kf decodes but its proof fetch fails, k9 has last_hash_at 0. -/
def envA : ClaimEnv where
  readToString := fun _ => Except.ok "content"
  parseKeys := fun _ => Except.ok ["k1", "k2"]
  decode := fun pk =>
    if pk = "k1" then DecodeResult.ok "ADDR5678WXYZ"
    else if pk = "kz" then DecodeResult.ok "ZBAL0000WXYZ"
    else if pk = "kt" then DecodeResult.ok "TIME0000WXYZ"
    else if pk = "kf" then DecodeResult.ok "FAIL0000WXYZ"
    else if pk = "k9" then DecodeResult.ok "NEVR0000WXYZ"
    else DecodeResult.bs58Fail
  fetchProof := fun a =>
    if a = "ADDR5678WXYZ" then Except.ok ⟨5, 7⟩
    else if a = "ZBAL0000WXYZ" then Except.ok ⟨0, 3⟩
    else if a = "TIME0000WXYZ" then Except.ok ⟨7, 2⟩
    else if a = "NEVR0000WXYZ" then Except.ok ⟨3, 0⟩
    else Except.error "rpc error"
  claimDuration := fun pk => if pk = "kt" then 40 else 0
  poolClaim := fun _ _ => Except.ok ()

/-- Termination environment where the fresh table runs one process with PID 123
while a miner log records PID 12: process 12 is not running. -/
def env4 : StopEnv :=
  ⟨true, [(123, "x")], [⟨"miner_1.log", true, ["进程ID: 12"]⟩], fun _ => true, true, "t"⟩

/-- Termination environment where the logged PID 12 really is running. -/
def env4w : StopEnv :=
  ⟨true, [(12, "bitz")], [⟨"miner_1.log", true, ["进程ID: 12"]⟩], fun _ => true, true, "t"⟩

/-- Termination environment whose only process has command name notbitzat,
which contains bitz as a substring without being the executable name. -/
def env8 : StopEnv :=
  ⟨true, [(999, "notbitzat")], [], fun _ => true, true, "t"⟩

/-- Termination environment whose only process is a genuine bitz workload. -/
def env8w : StopEnv :=
  ⟨true, [(7, "bitz")], [], fun _ => true, true, "t"⟩

/-- Termination environment where logs/process_list.txt does not exist. -/
def env6 : StopEnv :=
  ⟨false, [], [], fun _ => true, true, "t"⟩

/-- Termination environment for a re-run: the process list exists, a miner log
records PID 12, but no process is running at all. -/
def env6w : StopEnv :=
  ⟨true, [], [⟨"miner_1.log", true, ["进程ID: 12"]⟩], fun _ => true, true, "2025-01-01 00:00:00"⟩

/-- Collect environment where every spawn fails. -/
def env5 : CollectEnv :=
  ⟨fun _ => none⟩

/-- Collect environment where every spawn succeeds with PID 4242. -/
def env5w : CollectEnv :=
  ⟨fun _ => some 4242⟩

theorem claim_single_eq (fuel : Nat) (env : ClaimEnv) (m : Miner) (args : ClaimArgs)
    (h : args.subPrivate = none) :
    claim fuel env m args = some ⟨singleClaim env m args, [], []⟩ := by
  cases fuel <;> simp [claim, h]

theorem processKey_claim_eq (fuel : Nat) (env : ClaimEnv) (m : Miner)
    (args : ClaimArgs) (pk : String) :
    processKeyWith (fun m2 a2 => claim fuel env m2 a2) env m args pk
      = some (keyStep env m args pk) := by
  unfold processKeyWith keyStep
  cases hd : env.decode pk with
  | bs58Fail => rfl
  | keypairFail => rfl
  | ok address =>
    dsimp only
    cases hf : env.fetchProof address with
    | error e => rfl
    | ok proof =>
      dsimp only
      by_cases hb : proof.balance = 0
      · simp [hb]
      · by_cases ht : 30 < env.claimDuration pk
        · simp [hb, ht]
        · simp only [hb, ht, if_false]
          rw [claim_single_eq fuel env (tempMiner m pk) (tempArgs args) rfl]
          cases hs : singleClaim env (tempMiner m pk) (tempArgs args) <;> simp [hs]

theorem processKeys_claim_eq (fuel : Nat) (env : ClaimEnv) (m : Miner)
    (args : ClaimArgs) (keys : List String) :
    processKeysWith (fun m2 a2 => claim fuel env m2 a2) env m args keys
      = some (keys.map (keyStep env m args)) := by
  induction keys with
  | nil => rfl
  | cons pk rest ih => simp [processKeysWith, processKey_claim_eq, ih]

theorem keyStep_outcome_isSome (env : ClaimEnv) (m : Miner) (args : ClaimArgs)
    (pk : String) :
    (keyStep env m args pk).outcome.isSome = validKey env pk := by
  unfold keyStep validKey
  cases hd : env.decode pk with
  | bs58Fail => rfl
  | keypairFail => rfl
  | ok address =>
    dsimp only
    cases hf : env.fetchProof address with
    | error e => rfl
    | ok proof =>
      dsimp only
      by_cases hb : proof.balance = 0
      · simp [hb]
      · by_cases ht : 30 < env.claimDuration pk
        · simp [hb, ht]
        · simp only [hb, ht, if_false]
          cases hs : singleClaim env (tempMiner m pk) (tempArgs args) <;> simp [hs]

theorem keyStep_invalid (env : ClaimEnv) (m : Miner) (args : ClaimArgs) (pk : String)
    (h : validKey env pk = false) :
    (keyStep env m args pk).outcome = none ∧ (keyStep env m args pk).warnings ≠ [] := by
  unfold validKey at h
  unfold keyStep
  cases hd : env.decode pk with
  | bs58Fail => exact ⟨rfl, by simp⟩
  | keypairFail => exact ⟨rfl, by simp⟩
  | ok address => rw [hd] at h; simp at h

theorem outcomes_length_eq_valid_count (env : ClaimEnv) (m : Miner) (args : ClaimArgs)
    (keys : List String) :
    ((keys.map (keyStep env m args)).filterMap KeyStep.outcome).length
      = (keys.filter (validKey env)).length := by
  induction keys with
  | nil => rfl
  | cons pk rest ih =>
    have h := keyStep_outcome_isSome env m args pk
    cases hv : validKey env pk with
    | false =>
      rw [hv] at h
      have hn : (keyStep env m args pk).outcome = none := by
        cases ho : (keyStep env m args pk).outcome
        · rfl
        · rw [ho] at h; simp at h
      simp only [List.map_cons, List.filterMap_cons, List.filter_cons, hn, hv,
        cond_false]
      exact ih
    | true =>
      rw [hv] at h
      obtain ⟨d, hd⟩ := Option.isSome_iff_exists.mp h
      simp only [List.map_cons, List.filterMap_cons, List.filter_cons, hd, hv,
        cond_true, List.length_cons]
      exact congrArg Nat.succ ih

theorem batch_claim_eq (fuel : Nat) (env : ClaimEnv) (m : Miner) (fp : String)
    (args : ClaimArgs) (content : String) (keys : List String)
    (hread : env.readToString fp = Except.ok content)
    (hparse : env.parseKeys content = Except.ok keys) :
    batch_claim fuel env m fp args
      = some ⟨Except.ok (), (keys.map (keyStep env m args)).filterMap KeyStep.outcome,
              ((keys.map (keyStep env m args)).map KeyStep.warnings).flatten⟩ := by
  unfold batch_claim batchClaimWith
  rw [hread]
  dsimp only
  rw [hparse]
  dsimp only
  by_cases hk : keys.isEmpty
  · have hnil : keys = [] := by simpa [List.isEmpty_iff] using hk
    subst hnil
    simp
  · simp [hk, processKeys_claim_eq]

theorem batch_claim_ne_none (fuel : Nat) (env : ClaimEnv) (m : Miner) (fp : String)
    (args : ClaimArgs) :
    batch_claim fuel env m fp args ≠ none := by
  unfold batch_claim batchClaimWith
  cases hr : env.readToString fp with
  | error e => simp
  | ok content =>
    dsimp only
    cases hp : env.parseKeys content with
    | error e => simp
    | ok keys =>
      dsimp only
      by_cases hk : keys.isEmpty
      · simp [hk]
      · simp [hk, processKeys_claim_eq]

theorem toDigitsCore_length_le (b : Nat) :
    ∀ (fuel n : Nat) (ds : List Char), ds.length ≤ (Nat.toDigitsCore b fuel n ds).length := by
  intro fuel
  induction fuel with
  | zero => intro n ds; simp [Nat.toDigitsCore]
  | succ f ih =>
    intro n ds
    simp only [Nat.toDigitsCore]
    by_cases hx : n / b = 0
    · simp [hx]
    · simp only [hx, if_false]
      calc ds.length ≤ (Nat.digitChar (n % b) :: ds).length := by simp
        _ ≤ _ := ih (n / b) (Nat.digitChar (n % b) :: ds)

theorem toDigits_ne_nil (b n : Nat) : Nat.toDigits b n ≠ [] := by
  unfold Nat.toDigits
  simp only [Nat.toDigitsCore]
  by_cases hx : n / b = 0
  · simp [hx]
  · simp only [hx, if_false]
    intro hcon
    have h := toDigitsCore_length_le b n (n / b) [Nat.digitChar (n % b)]
    rw [hcon] at h
    simp at h

theorem natRepr_data_ne_nil (n : Nat) : (Nat.repr n).data ≠ [] := by
  show Nat.toDigits 10 n ≠ []
  exact toDigits_ne_nil 10 n

theorem strContainsSub_empty (s : String) (h : s.data ≠ []) :
    strContainsSub "" s = false := by
  show occursIn s.data [] = false
  unfold occursIn
  simpa [List.isEmpty_iff] using h

theorem registryKills_mem (listing : String) (dir : List DirEntry) (pid : Nat)
    (h : pid ∈ registryKills listing dir) :
    strContainsSub listing (Nat.repr pid) = true := by
  unfold registryKills at h
  obtain ⟨e, -, hfe⟩ := List.mem_filterMap.mp h
  split at hfe
  · cases hfp : firstPid e.lines with
    | none => rw [hfp] at hfe; cases hfe
    | some p =>
      rw [hfp] at hfe
      dsimp only at hfe
      by_cases hc : strContainsSub listing (Nat.repr p) = true
      · rw [if_pos hc] at hfe
        cases hfe
        exact hc
      · rw [if_neg hc] at hfe
        cases hfe
  · cases hfe

theorem registryKills_empty_listing (dir : List DirEntry) :
    registryKills "" dir = [] := by
  unfold registryKills
  apply List.filterMap_eq_nil_iff.mpr
  intro e _
  by_cases hm : isMinerLog e
  · rw [if_pos hm]
    cases hfp : firstPid e.lines with
    | none => rfl
    | some pid =>
      simp [strContainsSub_empty (Nat.repr pid) (natRepr_data_ne_nil pid)]
  · rw [if_neg hm]

theorem killAllPids_empty : killAllPids "" = [] := by
  rfl

theorem killAllPids_mem (listing : String) (pid : Nat)
    (h : pid ∈ killAllPids listing) :
    ∃ line, line ∈ splitOnStr listing "\n" ∧ strContainsSub line "bitz" = true
      ∧ pidOfPsLine line = some pid := by
  unfold killAllPids at h
  obtain ⟨line, hline, hp⟩ := List.mem_filterMap.mp h
  have hm := List.mem_filter.mp hline
  exact ⟨line, hm.1, hm.2, hp⟩

theorem batch_claim_fuel_eq (fuel fuel' : Nat) (env : ClaimEnv) (m : Miner)
    (fp : String) (args : ClaimArgs) :
    batch_claim fuel env m fp args = batch_claim fuel' env m fp args := by
  unfold batch_claim batchClaimWith
  cases hr : env.readToString fp with
  | error e => rfl
  | ok content =>
    dsimp only
    cases hp : env.parseKeys content with
    | error e => rfl
    | ok keys =>
      dsimp only
      by_cases hk : keys.isEmpty
      · simp [hk]
      · simp [hk, processKeys_claim_eq]

/-- C1: the batch claim loop never aborts on an individual failure — given a
readable credential file that parses to a key list, batch_claim returns Ok with
the full report; the report holds exactly one Claim Outcome per syntactically
valid (decodable, keypair-constructible) entry, in input order (the filterMap
of the per-entry denotations); and an entry that fails to decode produces a
printed warning and no outcome. -/
theorem c1_batch_outcome_per_valid_entry
    (fuel : Nat) (env : ClaimEnv) (m : Miner) (args : ClaimArgs)
    (fp content : String) (keys : List String) (pk : String)
    (hread : env.readToString fp = Except.ok content)
    (hparse : env.parseKeys content = Except.ok keys)
    (hpk : validKey env pk = false) :
    batch_claim fuel env m fp args
        = some ⟨Except.ok (), (keys.map (keyStep env m args)).filterMap KeyStep.outcome,
                ((keys.map (keyStep env m args)).map KeyStep.warnings).flatten⟩
      ∧ ((keys.map (keyStep env m args)).filterMap KeyStep.outcome).length
          = (keys.filter (validKey env)).length
      ∧ (keyStep env m args pk).outcome = none
      ∧ (keyStep env m args pk).warnings ≠ [] :=
  ⟨batch_claim_eq fuel env m fp args content keys hread hparse,
   outcomes_length_eq_valid_count env m args keys,
   (keyStep_invalid env m args pk hpk).1,
   (keyStep_invalid env m args pk hpk).2⟩

theorem c1_witness :
    (envA.readToString "f" = Except.ok "content"
      ∧ envA.parseKeys "content" = Except.ok ["k1", "k2"]
      ∧ validKey envA "k2" = false)
    ∧ (batch_claim 0 envA m0 "f" args0
        = some ⟨Except.ok (),
            (["k1", "k2"].map (keyStep envA m0 args0)).filterMap KeyStep.outcome,
            ((["k1", "k2"].map (keyStep envA m0 args0)).map KeyStep.warnings).flatten⟩
      ∧ ((["k1", "k2"].map (keyStep envA m0 args0)).filterMap KeyStep.outcome).length
          = (["k1", "k2"].filter (validKey envA)).length
      ∧ (keyStep envA m0 args0 "k2").outcome = none
      ∧ (keyStep envA m0 args0 "k2").warnings ≠ []) :=
  ⟨⟨rfl, rfl, rfl⟩,
   c1_batch_outcome_per_valid_entry 0 envA m0 args0 "f" "content" ["k1", "k2"] "k2"
     rfl rfl rfl⟩

/-- C2: a nested claim that does not complete within the 30 second bound is
recorded as 领取超时 (TimedOut), never as success or an omission, while a proof
fetch failure is recorded immediately as a 查询失败 entry — the latter holds for
every value of the nested claim duration, since the timeout wraps only the
nested claim call and not the fetch. -/
theorem c2_timeout_only_wraps_claim
    (fuel : Nat) (env : ClaimEnv) (m : Miner) (args : ClaimArgs)
    (pk address : String)
    (hd : env.decode pk = DecodeResult.ok address) :
    (∀ proof : ProofAccount, env.fetchProof address = Except.ok proof →
        proof.balance ≠ 0 → 30 < env.claimDuration pk →
        processKeyWith (fun m2 a2 => claim fuel env m2 a2) env m args pk
          = some ⟨["账户 " ++ shortAddress address ++ " 领取超时，跳过"],
                  some ⟨shortAddress address, AmountText.bitz proof.balance,
                        ClaimStatus.timedOut⟩⟩)
    ∧ (∀ e : String, env.fetchProof address = Except.error e →
        processKeyWith (fun m2 a2 => claim fuel env m2 a2) env m args pk
          = some ⟨[], some ⟨shortAddress address, AmountText.unavailable,
                            ClaimStatus.queryFailed e⟩⟩) := by
  constructor
  · intro proof hf hb ht
    unfold processKeyWith
    rw [hd]
    dsimp only
    rw [hf]
    dsimp only
    simp [hb, ht]
  · intro e hf
    unfold processKeyWith
    rw [hd]
    dsimp only
    rw [hf]

theorem c2_witness :
    (envA.decode "kt" = DecodeResult.ok "TIME0000WXYZ"
      ∧ envA.fetchProof "TIME0000WXYZ" = Except.ok ⟨7, 2⟩
      ∧ (7 : Nat) ≠ 0 ∧ 30 < envA.claimDuration "kt")
    ∧ processKeyWith (fun m2 a2 => claim 0 envA m2 a2) envA m0 args0 "kt"
        = some ⟨["账户 " ++ shortAddress "TIME0000WXYZ" ++ " 领取超时，跳过"],
                some ⟨shortAddress "TIME0000WXYZ", AmountText.bitz 7,
                      ClaimStatus.timedOut⟩⟩
    ∧ (envA.decode "kf" = DecodeResult.ok "FAIL0000WXYZ"
      ∧ envA.fetchProof "FAIL0000WXYZ" = Except.error "rpc error")
    ∧ processKeyWith (fun m2 a2 => claim 0 envA m2 a2) envA m0 args0 "kf"
        = some ⟨[], some ⟨shortAddress "FAIL0000WXYZ", AmountText.unavailable,
                          ClaimStatus.queryFailed "rpc error"⟩⟩ :=
  ⟨⟨rfl, rfl, by decide, by decide⟩,
   (c2_timeout_only_wraps_claim 0 envA m0 args0 "kt" "TIME0000WXYZ" rfl).1
     ⟨7, 2⟩ rfl (by decide) (by decide),
   ⟨rfl, rfl⟩,
   (c2_timeout_only_wraps_claim 0 envA m0 args0 "kf" "FAIL0000WXYZ" rfl).2
     "rpc error" rfl⟩

/-- C3: an identity whose fetched proof has balance zero is recorded as
无可领取奖励 (NothingToClaim), and no single-identity claim call is attempted:
the result is the same for every nested claim runner k, in particular for one
that never returns. -/
theorem c3_zero_balance_nothing_to_claim
    (k : Miner → ClaimArgs → Option ClaimOut) (env : ClaimEnv) (m : Miner)
    (args : ClaimArgs) (pk address : String) (proof : ProofAccount)
    (hd : env.decode pk = DecodeResult.ok address)
    (hf : env.fetchProof address = Except.ok proof)
    (hb : proof.balance = 0) :
    processKeyWith k env m args pk
      = some ⟨[], some ⟨shortAddress address, AmountText.literalZero,
                        ClaimStatus.nothingToClaim⟩⟩ := by
  unfold processKeyWith
  rw [hd]
  dsimp only
  rw [hf]
  dsimp only
  simp [hb]

theorem c3_witness :
    (envA.decode "kz" = DecodeResult.ok "ZBAL0000WXYZ"
      ∧ envA.fetchProof "ZBAL0000WXYZ" = Except.ok ⟨0, 3⟩)
    ∧ processKeyWith (fun _ _ => none) envA m0 args0 "kz"
        = some ⟨[], some ⟨shortAddress "ZBAL0000WXYZ", AmountText.literalZero,
                          ClaimStatus.nothingToClaim⟩⟩ :=
  ⟨⟨rfl, rfl⟩,
   c3_zero_balance_nothing_to_claim (fun _ _ => none) envA m0 args0 "kz"
     "ZBAL0000WXYZ" ⟨0, 3⟩ rfl rfl rfl⟩

/-- C4 counterexample: with one running process of PID 123 and a miner log
recording PID 12, the registry-scoped sweep issues a kill to 12, although 12 is
absent from the fresh process table — the code checks only that the digits of
the logged PID occur somewhere in the listing text, and 12 occurs inside 123. -/
theorem c4_counterexample :
    (terminate_mining env4 false).issued = [12]
    ∧ 12 ∉ env4.procs.map Prod.fst := by
  exact ⟨by decide, by decide⟩

/-- C4 amended: in registry-scoped termination a kill signal is issued for a
logged PID only when the decimal rendering of that PID occurs as a substring of
the fresh process-listing text; a PID whose digits occur nowhere in that text
is never killed. Presence as a running process is not required. -/
theorem c4_registry_kill_needs_substring
    (env : StopEnv) (pid : Nat)
    (h : pid ∈ (terminate_mining env false).issued) :
    strContainsSub (renderListing env.procs) (Nat.repr pid) = true := by
  unfold terminate_mining at h
  by_cases hex : env.processListExists
  · rw [if_pos hex] at h
    dsimp only at h
    exact registryKills_mem _ _ _ h
  · rw [if_neg hex] at h
    simp at h

theorem c4_witness :
    12 ∈ (terminate_mining env4w false).issued
    ∧ strContainsSub (renderListing env4w.procs) (Nat.repr 12) = true :=
  ⟨by decide, c4_registry_kill_needs_substring env4w 12 (by decide)⟩

/-- C5 counterexample: a one-entry batch whose only spawn fails still gets a
process-list artifact with a header line plus one per-entry line, so the
artifact does not have exactly one line per successfully spawned workload
(there were zero), and its per-entry line carries only index and log path. -/
theorem c5_counterexample :
    (batch_collect env5 ["k1"]).launched = []
    ∧ (batch_collect env5 ["k1"]).processList
        = some ["批量挖矿进程列表:", processListLine 1]
    ∧ ((batch_collect env5 ["k1"]).processList.getD []).length
        ≠ (batch_collect env5 ["k1"]).launched.length := by
  exact ⟨rfl, rfl, by decide⟩

/-- C5 amended: after a launch pass over a non-empty batch of N entries,
logs/process_list.txt is overwritten with one header line plus exactly one line
per input entry — spawn success or not — each of the form
账户 #i: 日志文件 logs/miner_i.log (index and log path, no address and no
PID); the pass launches at most N process records. -/
theorem c5_process_list_header_plus_all_entries
    (env : CollectEnv) (keys : List String) (hne : keys ≠ []) :
    (batch_collect env keys).processList
        = some ("批量挖矿进程列表:" ::
            (List.range keys.length).map (fun idx => processListLine (idx + 1)))
    ∧ ((batch_collect env keys).processList.getD []).length = keys.length + 1
    ∧ (batch_collect env keys).launched.length ≤ keys.length := by
  have hk : keys.isEmpty = false := by simp [List.isEmpty_iff, hne]
  unfold batch_collect
  simp only [hk, Bool.false_eq_true, if_false]
  refine ⟨trivial, ?_, ?_⟩
  · simp
  · simpa using List.length_filterMap_le _ (List.range keys.length)

theorem c5_witness :
    (["k1"] : List String) ≠ []
    ∧ ((batch_collect env5w ["k1"]).processList
        = some ("批量挖矿进程列表:" ::
            (List.range (["k1"] : List String).length).map
              (fun idx => processListLine (idx + 1)))
      ∧ ((batch_collect env5w ["k1"]).processList.getD []).length
          = (["k1"] : List String).length + 1
      ∧ (batch_collect env5w ["k1"]).launched.length
          ≤ (["k1"] : List String).length) :=
  ⟨by decide, c5_process_list_header_plus_all_entries env5w ["k1"] (by decide)⟩

/-- C6 counterexample: when logs/process_list.txt does not exist,
terminate_mining returns at once and the Stop Marker is not written, in either
mode — the sweep does not conclude by overwriting the marker. -/
theorem c6_counterexample :
    (terminate_mining env6 false).stopMarker = none
    ∧ (terminate_mining env6 true).stopMarker = none :=
  ⟨rfl, rfl⟩

/-- C6 amended: every invocation in which the process-list artifact exists and
the marker file can be created concludes by overwriting the Stop Marker with
the timestamp and the kill count, in either mode; in particular a re-run with
no processes running yields kill count 0 and still writes the marker. With the
process-list artifact missing, terminate returns early without a marker. -/
theorem c6_marker_written_when_list_exists
    (env : StopEnv) (killAll : Bool)
    (hex : env.processListExists = true)
    (hcr : env.stopMarkerCreateOk = true) :
    (terminate_mining env killAll).stopMarker
        = some (env.now, (terminate_mining env killAll).killedCount)
    ∧ (env.procs = [] → (terminate_mining env killAll).killedCount = 0) := by
  constructor
  · simp [terminate_mining, hex, hcr]
  · intro hpr
    cases killAll with
    | true =>
      simp only [terminate_mining, hex, if_true, hpr]
      have h0 : renderListing [] = "" := rfl
      rw [h0, killAllPids_empty]
      rfl
    | false =>
      simp only [terminate_mining, hex, if_true, hpr]
      have h0 : renderListing [] = "" := rfl
      rw [h0, registryKills_empty_listing]
      rfl

theorem c6_witness :
    (env6w.processListExists = true ∧ env6w.stopMarkerCreateOk = true)
    ∧ ((terminate_mining env6w false).stopMarker
        = some (env6w.now, (terminate_mining env6w false).killedCount)
      ∧ (env6w.procs = [] → (terminate_mining env6w false).killedCount = 0)) :=
  ⟨⟨rfl, rfl⟩, c6_marker_written_when_list_exists env6w false rfl rfl⟩

/-- C7 counterexample: account k1 has fetched balance 5 and a requested amount
of 1; the recorded outcome is Success with the full fetched balance 5, while
the amount the single solo claim resolves and claims is 1 — the recorded amount
is not the claimed amount when an explicit amount is given. -/
theorem c7_counterexample :
    processKeyWith (fun m2 a2 => claim 0 envA m2 a2) envA m0 args7 "k1"
        = some ⟨[], some ⟨"ADDR...WXYZ", AmountText.bitz 5, ClaimStatus.success⟩⟩
    ∧ resolveClaimAmount args7.amount 5 = 1
    ∧ AmountText.bitz 5 ≠ AmountText.bitz (resolveClaimAmount args7.amount 5) :=
  ⟨rfl, rfl, by decide⟩

/-- C7 amended: a nested claim completing with Ok within the bound records
领取成功 (Success), with the amount column always holding the full fetched
balance, whatever the requested amount; separately, the amount the single solo
claim actually claims is the explicit requested amount when given, else the
fetched balance. -/
theorem c7_success_amount_is_fetched_balance
    (fuel : Nat) (env : ClaimEnv) (m : Miner) (args : ClaimArgs)
    (pk address : String) (proof : ProofAccount)
    (hd : env.decode pk = DecodeResult.ok address)
    (hf : env.fetchProof address = Except.ok proof)
    (hb : proof.balance ≠ 0)
    (ht : ¬ 30 < env.claimDuration pk)
    (hc : singleClaim env (tempMiner m pk) (tempArgs args) = Except.ok ()) :
    processKeyWith (fun m2 a2 => claim fuel env m2 a2) env m args pk
        = some ⟨[], some ⟨shortAddress address, AmountText.bitz proof.balance,
                          ClaimStatus.success⟩⟩
    ∧ resolveClaimAmount args.amount proof.balance
        = args.amount.getD proof.balance := by
  constructor
  · unfold processKeyWith
    rw [hd]
    dsimp only
    rw [hf]
    dsimp only
    simp only [hb, ht, if_false]
    rw [claim_single_eq fuel env (tempMiner m pk) (tempArgs args) rfl]
    dsimp only
    rw [hc]
  · cases ha : args.amount <;> simp [resolveClaimAmount, ha]

theorem c7_witness :
    (envA.decode "k1" = DecodeResult.ok "ADDR5678WXYZ"
      ∧ envA.fetchProof "ADDR5678WXYZ" = Except.ok ⟨5, 7⟩
      ∧ (⟨5, 7⟩ : ProofAccount).balance ≠ 0
      ∧ ¬ 30 < envA.claimDuration "k1"
      ∧ singleClaim envA (tempMiner m0 "k1") (tempArgs args7) = Except.ok ())
    ∧ (processKeyWith (fun m2 a2 => claim 0 envA m2 a2) envA m0 args7 "k1"
        = some ⟨[], some ⟨shortAddress "ADDR5678WXYZ",
                          AmountText.bitz (⟨5, 7⟩ : ProofAccount).balance,
                          ClaimStatus.success⟩⟩
      ∧ resolveClaimAmount args7.amount (⟨5, 7⟩ : ProofAccount).balance
          = args7.amount.getD (⟨5, 7⟩ : ProofAccount).balance) :=
  ⟨⟨rfl, rfl, by decide, by decide, rfl⟩,
   c7_success_amount_is_fetched_balance 0 envA m0 args7 "k1" "ADDR5678WXYZ"
     ⟨5, 7⟩ rfl rfl (by decide) (by decide) rfl⟩

/-- C8 counterexample: the only process has PID 999 and command name notbitzat,
which is not the executable name bitz, yet kill-all issues a kill to 999
because bitz occurs inside notbitzat and the code matches the whole listing
line by substring. -/
theorem c8_counterexample :
    (terminate_mining env8 true).issued = [999]
    ∧ ∀ cmd, (999, cmd) ∈ env8.procs → cmd ≠ "bitz" := by
  constructor
  · decide
  · intro cmd hc
    have hc2 : (999, cmd) = (999, "notbitzat") := List.mem_singleton.mp hc
    have hcmd : cmd = "notbitzat" := congrArg Prod.snd hc2
    rw [hcmd]
    decide

/-- C8 amended: in kill-all termination a kill signal is issued only to PIDs
parsed from process-listing lines that contain the executable name bitz as a
substring anywhere in the line; a process whose listing line nowhere contains
that substring is never killed. A command-name match is not required. -/
theorem c8_killall_kills_only_bitz_substring_lines
    (env : StopEnv) (pid : Nat)
    (h : pid ∈ (terminate_mining env true).issued) :
    ∃ line, line ∈ splitOnStr (renderListing env.procs) "\n"
      ∧ strContainsSub line "bitz" = true
      ∧ pidOfPsLine line = some pid := by
  unfold terminate_mining at h
  by_cases hex : env.processListExists
  · rw [if_pos hex] at h
    dsimp only at h
    exact killAllPids_mem _ _ h
  · rw [if_neg hex] at h
    simp at h

theorem c8_witness :
    7 ∈ (terminate_mining env8w true).issued
    ∧ ∃ line, line ∈ splitOnStr (renderListing env8w.procs) "\n"
        ∧ strContainsSub line "bitz" = true
        ∧ pidOfPsLine line = some 7 :=
  ⟨by decide, c8_killall_kills_only_bitz_substring_lines env8w 7 (by decide)⟩

/-- C9: an account whose fetched proof has last_hash_at equal to zero renders
the last-mining-time column as the literal 从未挖矿 (never mined) rather than a
formatted timestamp. -/
theorem c9_zero_last_activity_renders_never_mined
    (env : ClaimEnv) (pk address : String) (proof : ProofAccount)
    (hd : env.decode pk = DecodeResult.ok address)
    (hf : env.fetchProof address = Except.ok proof)
    (hz : proof.lastHashAt = 0) :
    checkKey env pk = some ⟨shortAddress address, BalanceText.bitz proof.balance,
                            LastMinedText.neverMined⟩ := by
  unfold checkKey
  rw [hd]
  dsimp only
  rw [hf]
  dsimp only
  simp [hz]

theorem c9_witness :
    (envA.decode "k9" = DecodeResult.ok "NEVR0000WXYZ"
      ∧ envA.fetchProof "NEVR0000WXYZ" = Except.ok ⟨3, 0⟩
      ∧ (⟨3, 0⟩ : ProofAccount).lastHashAt = 0)
    ∧ checkKey envA "k9" = some ⟨shortAddress "NEVR0000WXYZ",
        BalanceText.bitz (⟨3, 0⟩ : ProofAccount).balance, LastMinedText.neverMined⟩ :=
  ⟨⟨rfl, rfl, rfl⟩,
   c9_zero_last_activity_renders_never_mined envA "k9" "NEVR0000WXYZ" ⟨3, 0⟩
     rfl rfl rfl⟩

theorem claim_batch_eq (fuel : Nat) (env : ClaimEnv) (m : Miner) (args : ClaimArgs)
    (fp : String) (h : args.subPrivate = some fp) :
    claim (fuel + 1) env m args = batch_claim fuel env m fp args := by
  rw [claim.eq_def]
  dsimp only
  rw [h]
  rfl

/-- C10: the arguments of every nested per-identity claim call carry
sub_private none, so the nested call always takes the single-identity path and
the recursion of the claim entry point through batch_claim is bounded at depth
one: one unit of recursion fuel gives the same result as any larger amount, and
with one unit the entry point never runs out of fuel. -/
theorem c10_nested_claim_recursion_depth_one
    (fuel : Nat) (env : ClaimEnv) (m : Miner) (args : ClaimArgs) :
    (tempArgs args).subPrivate = none
    ∧ claim (fuel + 1) env m args = claim 1 env m args
    ∧ claim 1 env m args ≠ none := by
  refine ⟨rfl, ?_, ?_⟩
  · cases hsp : args.subPrivate with
    | none =>
      rw [claim_single_eq (fuel + 1) env m args hsp, claim_single_eq 1 env m args hsp]
    | some fp =>
      have h1 : claim (fuel + 1) env m args = batch_claim fuel env m fp args :=
        claim_batch_eq fuel env m args fp hsp
      have h2 : claim 1 env m args = batch_claim 0 env m fp args :=
        claim_batch_eq 0 env m args fp hsp
      rw [h1, h2]
      exact batch_claim_fuel_eq fuel 0 env m fp args
  · cases hsp : args.subPrivate with
    | none =>
      rw [claim_single_eq 1 env m args hsp]
      simp
    | some fp =>
      have h2 : claim 1 env m args = batch_claim 0 env m fp args :=
        claim_batch_eq 0 env m args fp hsp
      rw [h2]
      exact batch_claim_ne_none 0 env m fp args
